import Mathlib

/-!
Verification of the luminary review pipeline core
(src/luminary/application/review_service.py and
src/luminary/domain/validators/comment_validator.py), shallowly embedded:
Python strings become Lean Strings, ints become Int/Nat, floats become
rationals, dicts parsed from JSON become association lists, and code that
can raise returns Except values whose error constructor records the Python
exception class.
-/

namespace Luminary

/-- Severity level of a comment (domain/models/comment.py, class Severity). -/
inductive Severity where
  | info
  | warning
  | error
deriving DecidableEq

/-- The Comment dataclass (domain/models/comment.py).  Its fields are exactly
content, line_number, line_range, severity, file_path; there is no
suggestion field. -/
structure Comment where
  content : String
  line_number : Option Int := none
  line_range : Option (Int × Int) := none
  severity : Severity := Severity.info
  file_path : Option String := none
deriving DecidableEq

/-- Comment.is_inline property: a line number or a line range is present. -/
def Comment.is_inline (c : Comment) : Bool :=
  c.line_number.isSome || c.line_range.isSome

/-- The ASCII whitespace recognized by Python str.strip and the regex
class \s: space, tab, newline, carriage return, vertical tab, form feed,
and the separator control characters 0x1c to 0x1f.  Python additionally
strips non-ASCII Unicode whitespace; the general theorems below are
restricted to ASCII responses, on which this predicate is exact. -/
def pyIsSpace (c : Char) : Bool :=
  c = ' ' || c = '\t' || c = '\n' || c = '\r' || c = '\x0b' || c = '\x0c' ||
    ('\x1c' ≤ c && c ≤ '\x1f')

/-- Python str.strip(): drop leading and trailing whitespace. -/
def pyStrip (s : String) : String :=
  String.mk (((s.data.dropWhile pyIsSpace).reverse.dropWhile pyIsSpace).reverse)

/-- Python str.lower() (ASCII case fold, which covers the repository's use). -/
def pyLower (s : String) : String :=
  String.mk (s.data.map Char.toLower)

/-- Python str.startswith, character-wise. -/
def pyStartsWith (s pre : String) : Bool :=
  pre.data.isPrefixOf s.data

/-- Python str.endswith, character-wise. -/
def pyEndsWith (s suf : String) : Bool :=
  suf.data.reverse.isPrefixOf s.data.reverse

/-- One pass of re.sub(r"\s+", " ", s): every maximal whitespace run becomes
a single space.  The flag records whether the previous character was part of
a run already replaced. -/
def collapseWsAux : Bool → List Char → List Char
  | _, [] => []
  | prevSpace, c :: rest =>
    if pyIsSpace c then
      if prevSpace then collapseWsAux true rest
      else ' ' :: collapseWsAux true rest
    else c :: collapseWsAux false rest

/-- Normalized comment content used by the dedup key in _dedupe_comments:
strip, lowercase, collapse whitespace runs to single spaces. -/
def normalizeContent (s : String) : String :=
  String.mk (collapseWsAux false (pyLower (pyStrip s)).data)

/-- The deduplication key built in _dedupe_comments (review_service.py). -/
def dedupeKey (c : Comment) :
    Option String × Option Int × Option (Int × Int) × Severity × String :=
  (c.file_path, c.line_number, c.line_range, c.severity, normalizeContent c.content)

/-- Loop of _dedupe_comments: keep a comment when its key has not been seen,
otherwise drop it; seen keys accumulate. -/
def dedupeAux :
    List (Option String × Option Int × Option (Int × Int) × Severity × String) →
    List Comment → List Comment
  | _, [] => []
  | seen, c :: rest =>
    if dedupeKey c ∈ seen then dedupeAux seen rest
    else c :: dedupeAux (dedupeKey c :: seen) rest

/-- _dedupe_comments (review_service.py): remove duplicate comments,
keeping first occurrences in order. -/
def dedupeComments (comments : List Comment) : List Comment :=
  dedupeAux [] comments

/-- _apply_comment_mode (review_service.py): the post-aggregation mode
filter.  Any mode other than "summary" and "inline" takes the final
else-branch ("both"). -/
def applyCommentMode (commentMode : String) (comments : List Comment)
    (summary : Option String) : List Comment × Option String :=
  if commentMode = "summary" then ([], summary)
  else if commentMode = "inline" then (comments.filter (fun c => c.is_inline), none)
  else (comments, summary)

/-- _estimate_tokens (review_service.py): rough heuristic, at least one
token, about four characters per token. -/
def estimateTokens (text : String) : Nat :=
  max 1 (text.length / 4)

/-- Per-line token estimates precomputed by _iter_file_chunks: each source
line costs estimateTokens of the line plus a newline. -/
def lineTokens (lines : List String) : List Nat :=
  lines.map (fun l => estimateTokens (l ++ "\n"))

/-- Inner while-loop of _iter_file_chunks: the number of further lines that
fit the remaining budget, scanning the token list greedily with the running
sum used. -/
def greedyCount (budget : Nat) : Nat → List Nat → Nat
  | _, [] => 0
  | used, t :: rest =>
    if used + t ≤ budget then greedyCount budget (used + t) rest + 1 else 0

/-- The chunk's exclusive end index: the greedy scan from startIdx, with
the 50-line fallback window (capped at the line count) when no line fits
the budget. -/
def chunkEnd (tok : List Nat) (budget startIdx : Nat) : Nat :=
  let endIdx0 := startIdx + greedyCount budget 0 (tok.drop startIdx)
  if endIdx0 = startIdx then min tok.length (startIdx + 50) else endIdx0

/-- The next chunk's start index: back up from the end by the overlap when
it is positive, but never give up the one-line forward progress. -/
def nextStartIdx (tok : List Nat) (budget overlap startIdx : Nat) : Nat :=
  let endIdx := chunkEnd tok budget startIdx
  max (if 0 < overlap then endIdx - overlap else endIdx) (startIdx + 1)

/-- Outer while-loop of _iter_file_chunks, restricted to the (start_line,
end_line) pairs it yields.  startIdx is the 0-based index of the chunk's
first line; the yielded pair is 1-based and inclusive.  fuel bounds the
iteration count; every iteration advances startIdx by at least one, so
fuel = number of lines suffices. -/
def chunkRangesAux (tok : List Nat) (budget overlap : Nat) :
    Nat → Nat → List (Nat × Nat)
  | _, 0 => []
  | startIdx, fuel + 1 =>
    if startIdx < tok.length then
      (startIdx + 1, chunkEnd tok budget startIdx) ::
        chunkRangesAux tok budget overlap (nextStartIdx tok budget overlap startIdx) fuel
    else []

/-- The chunk line ranges produced by _iter_file_chunks (review_service.py)
for a file with the given new_content.  tokenBudget stands for the computed
int(max_context_tokens * 0.7); overlap stands for max(0,
chunk_overlap_lines), which is nonnegative by construction.  Only the
(start_line, end_line) component of each yielded pair is modelled; the
sliced FileChange built alongside carries no further range information. -/
def iterFileChunkRanges (newContent : String) (tokenBudget overlap : Nat) :
    List (Nat × Nat) :=
  let lines := newContent.splitOn "\n"
  let tok := lineTokens lines
  chunkRangesAux tok tokenBudget overlap 0 tok.length

/-- Number of lines shared by two 1-based inclusive line ranges (zero when
they are disjoint). -/
def rangeOverlap (r1 r2 : Nat × Nat) : Nat :=
  min r1.2 r2.2 + 1 - max r1.1 r2.1

/-! ### JSON values and json.loads

Python json.loads is modelled by a strict recursive-descent reading of the
JSON grammar over the character list, with finite numbers carried as
rationals (Python distinguishes int and float; the pipeline only truncates
or compares numbers, for which the rational carries enough).  json.loads
additionally accepts the non-standard constants NaN, Infinity and
-Infinity by default, producing the corresponding floats; they get their
own constructors because nan and the infinities do not behave like any
rational in truthiness, comparisons and int().  Objects become association
lists with Python dict semantics: a duplicated key keeps its first
position and its last value, resolved at parse time by dictCons. -/

inductive Json where
  | null
  | bool (b : Bool)
  | num (q : ℚ)
  | nan
  | infinity (neg : Bool)
  | str (s : String)
  | arr (elems : List Json)
  | obj (fields : List (String × Json))

/-- The double-quote character. -/
def cQuote : Char := Char.ofNat 34

/-- The backslash character. -/
def cBackslash : Char := Char.ofNat 92

/-- The opening-brace character. -/
def cLBrace : Char := Char.ofNat 123

/-- The closing-brace character. -/
def cRBrace : Char := Char.ofNat 125

/-- The single-quote character. -/
def cSQuote : Char := Char.ofNat 39

/-- The backtick character. -/
def cBacktick : Char := Char.ofNat 96

/-- Whitespace skipped between JSON tokens by json.loads. -/
def jsonWs (c : Char) : Bool :=
  c = ' ' || c = '\t' || c = '\n' || c = '\r'

/-- Skip inter-token JSON whitespace. -/
def skipJsonWs (cs : List Char) : List Char :=
  cs.dropWhile jsonWs

/-- Python dict semantics for a member list built left to right: a key
keeps its leftmost position but takes its rightmost value.  rest is the
already-deduplicated dict of the later members; the new leftmost member
either yields its position to the later value of the same key or is
prepended. -/
def dictCons (k : String) (v : Json) (rest : List (String × Json)) :
    List (String × Json) :=
  match rest.find? (fun kv => kv.1 == k) with
  | some kv => (k, kv.2) :: rest.filter (fun kv2 => !(kv2.1 == k))
  | none => (k, v) :: rest

/-- Hex digit value, for string escapes of the form backslash-u. -/
def hexVal (c : Char) : Option Nat :=
  if '0' ≤ c ∧ c ≤ '9' then some (c.toNat - '0'.toNat)
  else if 'a' ≤ c ∧ c ≤ 'f' then some (c.toNat - 'a'.toNat + 10)
  else if 'A' ≤ c ∧ c ≤ 'F' then some (c.toNat - 'A'.toNat + 10)
  else none

/-- Single-character JSON string escapes. -/
def escChar (c : Char) : Option Char :=
  if c = cQuote then some cQuote
  else if c = cBackslash then some cBackslash
  else if c = '/' then some '/'
  else if c = 'b' then some '\x08'
  else if c = 'f' then some '\x0c'
  else if c = 'n' then some '\n'
  else if c = 'r' then some '\r'
  else if c = 't' then some '\t'
  else none

/-- Body of a JSON string literal, positioned after the opening quote;
returns the decoded characters and the remainder after the closing quote.
Raw control characters are rejected, as by json.loads in strict mode. -/
def parseJsonStringBody : List Char → Option (List Char × List Char)
  | [] => none
  | c :: rest =>
    if c = cQuote then some ([], rest)
    else if c = cBackslash then
      match rest with
      | [] => none
      | e :: rest2 =>
        if e = 'u' then
          match rest2 with
          | h1 :: h2 :: h3 :: h4 :: rest3 =>
            match hexVal h1, hexVal h2, hexVal h3, hexVal h4 with
            | some a, some b, some c3, some d =>
              (parseJsonStringBody rest3).map
                (fun p => (Char.ofNat (((a * 16 + b) * 16 + c3) * 16 + d) :: p.1, p.2))
            | _, _, _, _ => none
          | _ => none
        else
          match escChar e with
          | some ec => (parseJsonStringBody rest2).map (fun p => (ec :: p.1, p.2))
          | none => none
    else if c.toNat < 32 then none
    else (parseJsonStringBody rest).map (fun p => (c :: p.1, p.2))

/-- Digits to a natural number, most significant first. -/
def digitsToNat (ds : List Char) : Nat :=
  ds.foldl (fun acc c => acc * 10 + (c.toNat - '0'.toNat)) 0

/-- A JSON number literal: optional minus, integer part without leading
zeros, optional fraction, optional exponent; value as a rational. -/
def parseJsonNumber (cs : List Char) : Option (ℚ × List Char) :=
  let (neg, cs1) := match cs with
    | '-' :: rest => (true, rest)
    | _ => (false, cs)
  let intDigits := cs1.takeWhile Char.isDigit
  let cs2 := cs1.drop intDigits.length
  if intDigits.isEmpty then none
  else if intDigits.length > 1 ∧ intDigits.head? = some '0' then none
  else
    let (fracDigits, cs3) := match cs2 with
      | '.' :: rest =>
        (rest.takeWhile Char.isDigit, rest.drop (rest.takeWhile Char.isDigit).length)
      | _ => ([], cs2)
    if cs2.head? = some '.' ∧ fracDigits.isEmpty then none
    else
      let hasExp := cs3.head? = some 'e' ∨ cs3.head? = some 'E'
      let csE := if cs3.head? = some 'e' ∨ cs3.head? = some 'E' then cs3.drop 1 else cs3
      let (expNeg, csE1) := match csE with
        | '-' :: rest => (true, rest)
        | '+' :: rest => (false, rest)
        | _ => (false, csE)
      let expDigits := if hasExp then csE1.takeWhile Char.isDigit else []
      let cs4 := if hasExp then csE1.drop expDigits.length else cs3
      if hasExp ∧ expDigits.isEmpty then none
      else
        let mantNum : Nat := digitsToNat (intDigits ++ fracDigits)
        let fracLen := fracDigits.length
        let nd : Int × Nat :=
          if hasExp then
            if expNeg then ((mantNum : Int), 10 ^ (fracLen + digitsToNat expDigits))
            else (((mantNum * 10 ^ digitsToNat expDigits : Nat) : Int), 10 ^ fracLen)
          else ((mantNum : Int), 10 ^ fracLen)
        some (mkRat (if neg then -nd.1 else nd.1) nd.2, cs4)

mutual

/-- One JSON value (json.loads grammar), fuel-bounded. -/
def parseJsonValue : Nat → List Char → Option (Json × List Char)
  | 0, _ => none
  | fuel + 1, cs =>
    match skipJsonWs cs with
    | [] => none
    | c :: rest =>
      if c = cQuote then
        (parseJsonStringBody rest).map (fun p => (Json.str (String.mk p.1), p.2))
      else if c = '[' then
        parseJsonElemsFirst fuel rest
      else if c = cLBrace then
        parseJsonMembersFirst fuel rest
      else if c = 't' then
        if "rue".data.isPrefixOf rest then some (Json.bool true, rest.drop 3) else none
      else if c = 'f' then
        if "alse".data.isPrefixOf rest then some (Json.bool false, rest.drop 4) else none
      else if c = 'n' then
        if "ull".data.isPrefixOf rest then some (Json.null, rest.drop 3) else none
      else if c = 'N' then
        if "aN".data.isPrefixOf rest then some (Json.nan, rest.drop 2) else none
      else if c = 'I' then
        if "nfinity".data.isPrefixOf rest then some (Json.infinity false, rest.drop 7)
        else none
      else if c = '-' then
        if "Infinity".data.isPrefixOf rest then some (Json.infinity true, rest.drop 8)
        else (parseJsonNumber (c :: rest)).map (fun p => (Json.num p.1, p.2))
      else
        (parseJsonNumber (c :: rest)).map (fun p => (Json.num p.1, p.2))
termination_by structural fuel _ => fuel

/-- Array elements directly after the opening bracket. -/
def parseJsonElemsFirst : Nat → List Char → Option (Json × List Char)
  | 0, _ => none
  | fuel + 1, cs =>
    match skipJsonWs cs with
    | ']' :: rest => some (Json.arr [], rest)
    | cs1 => parseJsonElemsRest fuel cs1
termination_by structural fuel _ => fuel

/-- One array element followed by a comma and more elements, or the closing
bracket. -/
def parseJsonElemsRest : Nat → List Char → Option (Json × List Char)
  | 0, _ => none
  | fuel + 1, cs =>
    match parseJsonValue fuel cs with
    | none => none
    | some (v, rest) =>
      match skipJsonWs rest with
      | ',' :: rest2 =>
        match parseJsonElemsRest fuel rest2 with
        | some (Json.arr vs, rest3) => some (Json.arr (v :: vs), rest3)
        | _ => none
      | ']' :: rest2 => some (Json.arr [v], rest2)
      | _ => none
termination_by structural fuel _ => fuel

/-- Object members directly after the opening brace. -/
def parseJsonMembersFirst : Nat → List Char → Option (Json × List Char)
  | 0, _ => none
  | fuel + 1, cs =>
    match skipJsonWs cs with
    | c :: rest =>
      if c = cRBrace then some (Json.obj [], rest)
      else parseJsonMembersRest fuel (c :: rest)
    | [] => none
termination_by structural fuel _ => fuel

/-- One member (string key, colon, value) followed by a comma and more
members, or the closing brace. -/
def parseJsonMembersRest : Nat → List Char → Option (Json × List Char)
  | 0, _ => none
  | fuel + 1, cs =>
    match skipJsonWs cs with
    | c :: rest =>
      if c = cQuote then
        match parseJsonStringBody rest with
        | none => none
        | some (key, rest1) =>
          match skipJsonWs rest1 with
          | ':' :: rest2 =>
            match parseJsonValue fuel rest2 with
            | none => none
            | some (v, rest3) =>
              match skipJsonWs rest3 with
              | ',' :: rest4 =>
                match parseJsonMembersRest fuel rest4 with
                | some (Json.obj kvs, rest5) =>
                  some (Json.obj (dictCons (String.mk key) v kvs), rest5)
                | _ => none
              | c5 :: rest4 =>
                if c5 = cRBrace then some (Json.obj [(String.mk key, v)], rest4)
                else none
              | [] => none
          | _ => none
      else none
    | [] => none
termination_by structural fuel _ => fuel

end

/-- json.loads: parse one JSON document, requiring the whole input to be
consumed up to trailing whitespace; None models json.JSONDecodeError. -/
def pyJsonLoads (s : String) : Option Json :=
  match parseJsonValue (2 * s.length + 8) s.data with
  | some (v, rest) => if skipJsonWs rest = [] then some v else none
  | none => none

/-- Lookup in a parsed JSON object with a default, searching from the right
because Python dict construction lets a duplicated key overwrite earlier
occurrences (dict.get(key, default)). -/
def jsonGetD (fields : List (String × Json)) (key : String) (dflt : Json) : Json :=
  match fields.reverse.find? (fun kv => kv.1 == key) with
  | some kv => kv.2
  | none => dflt

/-- Lookup in a parsed JSON object (dict.get(key), None when absent). -/
def jsonGet? (fields : List (String × Json)) (key : String) : Option Json :=
  (fields.reverse.find? (fun kv => kv.1 == key)).map (·.2)

/-- Python truthiness of a parsed JSON value (nan and the infinities are
nonzero floats, hence truthy). -/
def pyTruthy : Json → Bool
  | .null => false
  | .bool b => b
  | .num q => decide (q ≠ 0)
  | .nan => true
  | .infinity _ => true
  | .str s => s ≠ ""
  | .arr xs => !xs.isEmpty
  | .obj kvs => !kvs.isEmpty

/-- Substring containment over character lists (the Python in operator on
strings). -/
def containsSub (pat : List Char) : List Char → Bool
  | [] => pat.isEmpty
  | c :: rest => pat.isPrefixOf (c :: rest) || containsSub pat rest

/-- Python s2 in s1 for strings. -/
def containsSubstr (s pat : String) : Bool :=
  containsSub pat.data s.data

/-- Split at the first occurrence of a pattern: the characters before it and
the characters after it. -/
def splitFirst (pat : List Char) : List Char → Option (List Char × List Char)
  | [] => if pat.isEmpty then some ([], []) else none
  | c :: rest =>
    if pat.isPrefixOf (c :: rest) then some ([], (c :: rest).drop pat.length)
    else (splitFirst pat rest).map (fun p => (c :: p.1, p.2))

/-- Python str.find for a single character: index of its first occurrence. -/
def charIdx? (c : Char) (cs : List Char) : Option Nat :=
  cs.findIdx? (· == c)

/-- Python str.rfind for a single character: index of its last occurrence. -/
def charRIdx? (c : Char) (cs : List Char) : Option Nat :=
  (charIdx? c cs.reverse).map (fun i => cs.length - 1 - i)

/-- _infer_severity (review_service.py): keyword scan over the lowercased
message. -/
def inferSeverity (message : String) : Severity :=
  let m := pyLower message
  if containsSubstr m "error" || containsSubstr m "critical" || containsSubstr m "bug" then
    Severity.error
  else if containsSubstr m "warning" || containsSubstr m "potential" then
    Severity.warning
  else Severity.info

/-! ### The review response parsing pipeline (review_service.py)

The regular expressions of the source are modelled by direct scanning
functions; each function's doc comment names the pattern it stands for.
re.search scans for the leftmost match, a lazy dot-star takes the shortest
extent, a greedy character class takes the longest. -/

/-- The quoted literal written in several of the source's patterns:
a double quote, the word comments, a double quote. -/
def commentsLit : List Char :=
  cQuote :: "comments".data ++ [cQuote]

/-- Body of the fenced-block pattern of _extract_json_from_response,
positioned just after three backticks: an optional json tag, whitespace,
then either a bracketed segment (lazily up to the first closing bracket) or
a braced segment lazily containing the quoted comments key. -/
def fenceGroupAt (cs : List Char) : Option (List Char) :=
  let cs1 := if "json".data.isPrefixOf cs then cs.drop 4 else cs
  let cs2 := cs1.dropWhile pyIsSpace
  match cs2 with
  | [] => none
  | c :: rest =>
    if c = '[' then
      match splitFirst [']'] rest with
      | some (before, _) => some ('[' :: before ++ [']'])
      | none => none
    else if c = cLBrace then
      match splitFirst commentsLit rest with
      | some (before1, after1) =>
        match splitFirst [cRBrace] after1 with
        | some (before2, _) =>
          some (cLBrace :: before1 ++ commentsLit ++ before2 ++ [cRBrace])
        | none => none
      | none => none
    else none

/-- re.search for the fenced-block pattern of _extract_json_from_response:
scan left to right for three backticks and try the body there. -/
def scanFence : List Char → Option (List Char)
  | [] => none
  | c :: rest =>
    if c = cBacktick then
      match rest with
      | c2 :: c3 :: rest3 =>
        if c2 = cBacktick ∧ c3 = cBacktick then
          match fenceGroupAt rest3 with
          | some g => some g
          | none => scanFence rest
        else scanFence rest
      | _ => scanFence rest
    else scanFence rest

/-- _extract_json_from_response (review_service.py): the fenced JSON block
when one matches, otherwise the stripped response. -/
def extractJsonFromResponse (response : String) : String :=
  match scanFence response.data with
  | some g => String.mk g
  | none => pyStrip response

/-- re.sub driver: walk the characters, replacing each leftmost
non-overlapping match (consuming the returned number of characters and
emitting the replacement), copying one character on no match. -/
def subScan (matchAt : List Char → Option (Nat × List Char)) :
    Nat → List Char → List Char
  | 0, cs => cs
  | _ + 1, [] => []
  | fuel + 1, c :: rest =>
    match matchAt (c :: rest) with
    | some (n, repl) =>
      if n = 0 then c :: subScan matchAt fuel rest
      else repl ++ subScan matchAt fuel ((c :: rest).drop n)
    | none => c :: subScan matchAt fuel rest

/-- Matcher for a quoted key, whitespace, colon, whitespace, then one
required character; yields the number of characters matched. -/
def matchKeyColonChar (key : List Char) (target : Char) (cs : List Char) : Option Nat :=
  let lit := cQuote :: key ++ [cQuote]
  if lit.isPrefixOf cs then
    let r1 := cs.drop lit.length
    let w1 := r1.takeWhile pyIsSpace
    match r1.drop w1.length with
    | ':' :: r2 =>
      let w2 := r2.takeWhile pyIsSpace
      match r2.drop w2.length with
      | c :: _ =>
        if c = target then some (lit.length + w1.length + 1 + w2.length + 1) else none
      | [] => none
    | _ => none
  else none

/-- Replacement text: quoted key, colon, space, null, then a suffix. -/
def keyNullRepl (key : List Char) (suffix : List Char) : List Char :=
  cQuote :: key ++ [cQuote] ++ ": null".data ++ suffix

/-- First fix of _fix_common_json_errors: an empty line field before a comma
becomes line colon null comma. -/
def matchLineEmpty (cs : List Char) : Option (Nat × List Char) :=
  (matchKeyColonChar "line".data ',' cs).map
    (fun n => (n, keyNullRepl "line".data [',']))

/-- Second fix: an empty suggestion field before a comma. -/
def matchSuggestionComma (cs : List Char) : Option (Nat × List Char) :=
  (matchKeyColonChar "suggestion".data ',' cs).map
    (fun n => (n, keyNullRepl "suggestion".data [',']))

/-- Third fix: an empty suggestion field before a closing brace. -/
def matchSuggestionBrace (cs : List Char) : Option (Nat × List Char) :=
  (matchKeyColonChar "suggestion".data cRBrace cs).map
    (fun n => (n, keyNullRepl "suggestion".data [cRBrace]))

/-- Fourth fix: an empty suggestion field at end of line (the multiline
dollar anchor holds at end of input or before a newline; the greedy
whitespace backtracks to the last newline of its run). -/
def matchSuggestionEol (cs : List Char) : Option (Nat × List Char) :=
  let lit := cQuote :: "suggestion".data ++ [cQuote]
  if lit.isPrefixOf cs then
    let r1 := cs.drop lit.length
    let w1 := r1.takeWhile pyIsSpace
    match r1.drop w1.length with
    | ':' :: r2 =>
      let w2 := r2.takeWhile pyIsSpace
      if (r2.drop w2.length).isEmpty then
        some (lit.length + w1.length + 1 + w2.length, keyNullRepl "suggestion".data [])
      else
        match (List.range w2.length).filter (fun i => w2.get? i = some '\n') with
        | [] => none
        | is =>
          match is.getLast? with
          | some k => some (lit.length + w1.length + 1 + k, keyNullRepl "suggestion".data [])
          | none => none
    | _ => none
  else none

/-- Fifth fix: a comma, whitespace and a closing brace or bracket lose the
comma (the whitespace and closer are the kept group). -/
def matchTrailingComma (cs : List Char) : Option (Nat × List Char) :=
  match cs with
  | ',' :: rest =>
    let ws := rest.takeWhile pyIsSpace
    match rest.drop ws.length with
    | c :: _ =>
      if c = cRBrace ∨ c = ']' then some (1 + ws.length + 1, ws ++ [c]) else none
    | [] => none
  | _ => none

/-- A word character for the regex word classes and boundary tests, in
the ASCII reading (exact for ASCII input; Python admits further Unicode
word characters). -/
def isWordChar (c : Char) : Bool :=
  c.isAlpha || c.isDigit || c = '_'

/-- Sixth fix: colon, whitespace, the word null at a word boundary,
normalized to colon space null. -/
def matchNullNorm (cs : List Char) : Option (Nat × List Char) :=
  match cs with
  | ':' :: rest =>
    let ws := rest.takeWhile pyIsSpace
    let r2 := rest.drop ws.length
    if "null".data.isPrefixOf r2 then
      match (r2.drop 4).head? with
      | some c => if isWordChar c then none else some (1 + ws.length + 4, ": null".data)
      | none => some (1 + ws.length + 4, ": null".data)
    else none
  | _ => none

/-- Characters admitted into the unquoted message value of the seventh
fix's conservative heuristic. -/
def msgValChar (c : Char) : Bool :=
  !(c = cQuote || c = ',' || c = '[' || c = ']' || c = cLBrace || c = cRBrace ||
    c = '(' || c = ')' || c = '\n')

/-- Lookahead of the seventh fix: whitespace then a comma or closing
brace. -/
def msgLookahead (rest : List Char) : Bool :=
  match rest.dropWhile pyIsSpace with
  | c :: _ => c = ',' || c = cRBrace
  | [] => false

/-- Longest nonempty capture length whose remainder satisfies the
lookahead (the greedy plus backtracks from the right). -/
def shrinkCap (r3 : List Char) : Nat → Option Nat
  | 0 => none
  | k + 1 => if msgLookahead (r3.drop (k + 1)) then some (k + 1) else shrinkCap r3 k

/-- Seventh fix: an unquoted message value gets quoted (conservative
heuristic of _fix_common_json_errors).  The capture is the greedy run of
admitted characters after the greedy whitespace, shrunk from the right
until the lookahead holds; when no such capture exists the whitespace
backtracks until its next character can start a capture.  The capture
class excludes the newline, so the backtracking stops at the last
non-newline whitespace character: it becomes the one-character capture,
any newline run after it is left to the lookahead (not consumed), and a
whitespace run of only newlines admits no match at all. -/
def matchMessageQuote (cs : List Char) : Option (Nat × List Char) :=
  let lit := cQuote :: "message".data ++ [cQuote]
  if lit.isPrefixOf cs then
    let r1 := cs.drop lit.length
    let w1 := r1.takeWhile pyIsSpace
    match r1.drop w1.length with
    | ':' :: r2 =>
      let w2 := r2.takeWhile pyIsSpace
      let r3 := r2.drop w2.length
      let capMax := r3.takeWhile msgValChar
      match shrinkCap r3 capMax.length with
      | some k =>
        some (lit.length + w1.length + 1 + w2.length + k,
          cQuote :: "message".data ++ [cQuote] ++ ": ".data ++
            (cQuote :: r3.take k ++ [cQuote]))
      | none =>
        match w2.reverse.dropWhile (fun ch => ch = '\n') with
        | [] => none
        | wc :: wrest =>
          if msgLookahead r3 then
            some (lit.length + w1.length + 1 + (wrest.length + 1),
              cQuote :: "message".data ++ [cQuote] ++ ": ".data ++
                (cQuote :: wc :: [cQuote]))
          else none
    | _ => none
  else none

/-- _fix_common_json_errors (review_service.py): the seven textual repairs,
applied in source order. -/
def fixCommonJsonErrors (s : String) : String :=
  let c0 := s.data
  let c1 := subScan matchLineEmpty c0.length c0
  let c2 := subScan matchSuggestionComma c1.length c1
  let c3 := subScan matchSuggestionBrace c2.length c2
  let c4 := subScan matchSuggestionEol c3.length c3
  let c5 := subScan matchTrailingComma c4.length c4
  let c6 := subScan matchNullNorm c5.length c5
  let c7 := subScan matchMessageQuote c6.length c6
  String.mk c7

/-- re.search of _parse_json_response: a braced segment free of inner
braces containing the quoted comments key.  At each opening brace the
maximal brace-free run must be terminated by a closing brace and contain
the literal. -/
def searchBraceComments : List Char → Option (List Char)
  | [] => none
  | c :: rest =>
    if c = cLBrace then
      let run := rest.takeWhile (fun ch => !(ch = cLBrace || ch = cRBrace))
      match rest.drop run.length with
      | c2 :: _ =>
        if c2 = cRBrace ∧ containsSub commentsLit run then
          some (cLBrace :: run ++ [cRBrace])
        else searchBraceComments rest
      | [] => searchBraceComments rest
    else searchBraceComments rest

/-- _parse_json_response (review_service.py): direct json.loads, else the
narrower comments-bearing braced segment repaired and parsed; None models
the final parse failure. -/
def parseJsonResponse (jsonStr : String) : Option Json :=
  match pyJsonLoads jsonStr with
  | some d => some d
  | none =>
    match searchBraceComments jsonStr.data with
    | some seg => pyJsonLoads (fixCommonJsonErrors (String.mk seg))
    | none => none

/-- The Python exception classes that the pipeline's handlers
distinguish. -/
inductive PyErr where
  | typeErr
  | attrErr
  | valueErr
  | overflowErr
deriving DecidableEq

/-- Python int(s) on a stripped nonempty string: optional sign and
digits. -/
def pyIntOfStr (s : String) : Option Int :=
  let core : List Char → Option Int := fun ds =>
    if !ds.isEmpty ∧ ds.all Char.isDigit then some (digitsToNat ds : Int) else none
  match s.data with
  | '-' :: ds => (core ds).map (fun n => -n)
  | '+' :: ds => core ds
  | ds => core ds

/-- Python int() truncation of a number toward zero (the numerator tdiv
the denominator truncates toward zero on a reduced rational). -/
def ratTruncToInt (q : ℚ) : Int :=
  q.num.tdiv q.den

/-- The line-number coercion try-block of _parse_comment_item: a string is
stripped (an empty one is skipped), int() of a string needs sign and
digits, a finite number truncates, a bool counts as its integer; int() of
nan raises a ValueError that the handler catches (skip), int() of a
container raises a caught TypeError (skip), but int() of an infinity
raises OverflowError, which the (ValueError, TypeError) handler does not
catch, so it escapes the item. -/
def pyCoerceLineVal : Json → Except PyErr (Option Int)
  | .str s =>
    let t := pyStrip s
    if t = "" then .ok none else .ok (pyIntOfStr t)
  | .num q => .ok (some (ratTruncToInt q))
  | .nan => .ok none
  | .infinity _ => .error .overflowErr
  | .bool b => .ok (some (if b then 1 else 0))
  | .arr _ => .ok none
  | .obj _ => .ok none
  | .null => .ok none

/-- _parse_comment_item (review_service.py).  Items that are not objects,
lack a usable line number, or have line below one are skipped (ok none).
A non-string message makes message.lower() raise AttributeError.
Otherwise the code reaches Comment(content=..., line_number=...,
file_path=..., severity=..., suggestion=...): the Comment dataclass has no
suggestion parameter, so the constructor call raises TypeError. -/
def parseCommentItem (item : Json) (filePath : String) : Except PyErr (Option Comment) :=
  match item with
  | .obj fields =>
    match jsonGet? fields "line" with
    | none => .ok none
    | some .null => .ok none
    | some lineVal =>
      match pyCoerceLineVal lineVal with
      | .error e => .error e
      | .ok none => .ok none
      | .ok (some n) =>
        if n < 1 then .ok none
        else
          match jsonGetD fields "message" (.str "") with
          | .str _ => .error .typeErr
          | _ => .error .attrErr
  | _ => .ok none

/-- The per-item loop of _parse_llm_response: skipped items vanish, the
first raised exception aborts the whole try-block. -/
def collectComments (filePath : String) : List Json → Except PyErr (List Comment)
  | [] => .ok []
  | item :: rest =>
    match parseCommentItem item filePath with
    | .error e => .error e
    | .ok none => collectComments filePath rest
    | .ok (some c) => (collectComments filePath rest).map (fun cs => c :: cs)

/-- The comments-array selection of _parse_llm_response: a list is taken
directly; from a dict, data.get("comments", []) is iterated — iterating a
string yields its one-character strings and iterating a dict yields its
keys, while null, numbers and bools are not iterable (TypeError); any other
top-level JSON value raises the unexpected-structure ValueError. -/
def commentsArrayOf : Json → Except PyErr (List Json)
  | .arr xs => .ok xs
  | .obj fields =>
    match jsonGetD fields "comments" (.arr []) with
    | .arr xs => .ok xs
    | .str s => .ok (s.data.map (fun c => Json.str (String.mk [c])))
    | .obj kvs => .ok (kvs.map (fun kv => Json.str kv.1))
    | _ => .error .typeErr
  | _ => .error .valueErr

/-- Try-block of _parse_llm_response: extraction (an empty extraction
raises ValueError), repair, parse (failure raises ValueError), then the
per-item loop. -/
def parseLLMResponseE (response filePath : String) : Except PyErr (List Comment) :=
  let jsonStr := extractJsonFromResponse response
  if jsonStr = "" then .error .valueErr
  else
    let fixedJson := fixCommonJsonErrors jsonStr
    match parseJsonResponse fixedJson with
    | none => .error .valueErr
    | some data =>
      match commentsArrayOf data with
      | .error e => .error e
      | .ok items => collectComments filePath items

/-- _create_fallback_comment (review_service.py): one info comment holding
the error prefix and the raw response, or nothing for a blank response. -/
def createFallbackComment (response filePath errText : String) : List Comment :=
  if pyStrip response = "" then []
  else
    [{ content := "*[" ++ errText ++ "]*\n\n" ++ response,
       line_number := none, line_range := none,
       severity := Severity.info, file_path := some filePath }]

/-- The fallback prefix chosen by the two exception handlers of
_parse_llm_response: ValueError (and JSONDecodeError) take the first
handler, every other exception the second. -/
def errFallbackText : PyErr → String
  | .valueErr => "Parsing error: expected JSON format"
  | _ => "Error parsing response"

/-- _parse_llm_response (review_service.py): the try-block result, with
every exception degraded to the fallback comment.  The embedded function is
total: no outcome escapes as an exception. -/
def parseLLMResponse (response filePath : String) : List Comment :=
  match parseLLMResponseE response filePath with
  | .ok comments => comments
  | .error e => createFallbackComment response filePath (errFallbackText e)

/-- Literal replacement matcher for Python str.replace. -/
def litReplMatcher (pat repl : List Char) (cs : List Char) : Option (Nat × List Char) :=
  if !pat.isEmpty ∧ pat.isPrefixOf cs then some (pat.length, repl) else none

/-- Python str.replace: every occurrence of pat becomes repl. -/
def pyReplace (s pat repl : String) : String :=
  String.mk (subScan (litReplMatcher pat.data repl.data) s.data.length s.data)

/-- Line loop of _extract_summary_from_text: a marker line starts (or
restarts) collection with its remainder; afterwards nonempty lines are
collected stripped and the first blank line ends the scan. -/
def summaryScan : Bool → List String → List String
  | _, [] => []
  | started, line :: rest =>
    if containsSubstr line "**Summary:**" || pyStartsWith (pyStrip line) "Summary:" then
      let remainder := pyStrip (pyReplace (pyReplace line "**Summary:**" "") "Summary:" "")
      if remainder = "" then summaryScan true rest
      else remainder :: summaryScan true rest
    else if started then
      if pyStrip line = "" then []
      else pyStrip line :: summaryScan true rest
    else summaryScan false rest

/-- _extract_summary_from_text (review_service.py). -/
def extractSummaryFromText (response : String) : Option String :=
  let ls := summaryScan false (response.splitOn "\n")
  if ls.isEmpty then none else some (String.intercalate "\n" ls)

/-- JSON part of _extract_summary: a truthy summary member of a parsed
dict, returned as stored (the source passes the value through whatever its
type). -/
def extractSummaryJson (response : String) : Option Json :=
  let jsonStr := extractJsonFromResponse response
  if jsonStr = "" then none
  else
    match parseJsonResponse (fixCommonJsonErrors jsonStr) with
    | some (.obj fields) =>
      match jsonGet? fields "summary" with
      | some v => if pyTruthy v then some v else none
      | none => none
    | _ => none

/-- _extract_summary (review_service.py): the JSON summary when present and
truthy, otherwise the legacy text scan. -/
def extractSummary (response : String) : Option Json :=
  match extractSummaryJson response with
  | some v => some v
  | none => (extractSummaryFromText response).map Json.str

/-! ### The comment validator (comment_validator.py) -/

/-- The ValidationResult object: the decision, the reason and scores as
stored (the source stores whatever values the judgment carried), and the
judged comment. -/
structure ValidationResultE where
  valid : Bool
  reason : Json
  scores : Json
  comment : Comment

/-- The hard-coded fallback scores dict with 0.7 everywhere. -/
def defaultScores : Json :=
  Json.obj [("relevance", .num (mkRat 7 10)), ("usefulness", .num (mkRat 7 10)),
    ("non_redundancy", .num (mkRat 7 10))]

/-- The zero scores dict used by the validate error handler. -/
def zeroScores : Json :=
  Json.obj [("relevance", .num 0), ("usefulness", .num 0), ("non_redundancy", .num 0)]

/-- Lazy braced group of the validator's fenced-block pattern: the content
grows until a closing brace that is followed by whitespace and three
backticks. -/
def vLazyBrace (acc : List Char) : List Char → Option (List Char)
  | [] => none
  | c :: rest =>
    if c = cRBrace ∧ [cBacktick, cBacktick, cBacktick].isPrefixOf (rest.dropWhile pyIsSpace) then
      some (cLBrace :: acc.reverse ++ [cRBrace])
    else vLazyBrace (c :: acc) rest

/-- Body of the validator's fenced-block pattern (Strategy 1 of
_parse_validation_response), after three backticks: optional json tag,
whitespace, then a lazily braced group closed by a fence. -/
def vFenceBodyAt (cs : List Char) : Option (List Char) :=
  let cs1 := if "json".data.isPrefixOf cs then cs.drop 4 else cs
  let cs2 := cs1.dropWhile pyIsSpace
  match cs2 with
  | c :: rest => if c = cLBrace then vLazyBrace [] rest else none
  | [] => none

/-- re.search for the validator's fenced-block pattern. -/
def scanVFence : List Char → Option (List Char)
  | [] => none
  | c :: rest =>
    if c = cBacktick then
      match rest with
      | c2 :: c3 :: rest3 =>
        if c2 = cBacktick ∧ c3 = cBacktick then
          match vFenceBodyAt rest3 with
          | some g => some g
          | none => scanVFence rest
        else scanVFence rest
      | _ => scanVFence rest
    else scanVFence rest

/-- Strategies 1 to 3 of _parse_validation_response: the fenced JSON block,
else the span from the first opening brace to the last closing brace, else
the stripped response. -/
def selectJsonStr (response : String) : String :=
  match scanVFence response.data with
  | some g => String.mk g
  | none =>
    let cs := response.data
    match charIdx? cLBrace cs, charRIdx? cRBrace cs with
    | some s, some e =>
      if s ≤ e then String.mk ((cs.drop s).take (e + 1 - s)) else pyStrip response
    | _, _ => pyStrip response

/-- Fix of parsing attempt 2: a single-quoted word key before a colon
becomes double quoted.  The word class is the ASCII reading of the regex
word class; Python matches Unicode word characters too, so the theorems
that depend on this matcher are stated on ASCII responses, where the two
readings coincide. -/
def matchSQuoteKey (cs : List Char) : Option (Nat × List Char) :=
  match cs with
  | c :: rest =>
    if c = cSQuote then
      let w := rest.takeWhile isWordChar
      if w.isEmpty then none
      else
        match rest.drop w.length with
        | c2 :: ':' :: _ =>
          if c2 = cSQuote then some (1 + w.length + 2, cQuote :: w ++ [cQuote, ':'])
          else none
        | _ => none
    else none
  | [] => none

/-- The textual repairs of parsing attempt 2: strip trailing commas, then
requote single-quoted keys. -/
def fixValidationJson (s : String) : String :=
  let c1 := subScan matchTrailingComma s.data.length s.data
  let c2 := subScan matchSQuoteKey c1.length c1
  String.mk c2

/-- Parsing attempts 1 and 2 of _parse_validation_response: direct
json.loads, else json.loads after the repairs. -/
def tryParseValidationJson (jsonStr : String) : Option Json :=
  match pyJsonLoads jsonStr with
  | some d => some d
  | none => pyJsonLoads (fixValidationJson jsonStr)

/-- Case-insensitive prefix test for the IGNORECASE searches. -/
def ciPrefix : List Char → List Char → Bool
  | [], _ => true
  | _ :: _, [] => false
  | p :: ps, c :: cs => Char.toLower p = Char.toLower c && ciPrefix ps cs

/-- re.search for a quoted key, whitespace, colon, whitespace, then a
payload; ci selects case-insensitive key matching.  The scan advances one
character at a time, as the regex engine retries at each position. -/
def searchKeyColon {α : Type} (ci : Bool) (key : List Char) (payload : List Char → Option α) :
    List Char → Option α
  | [] => none
  | c :: rest =>
    let lit := cQuote :: key ++ [cQuote]
    let pref := if ci then ciPrefix lit (c :: rest) else lit.isPrefixOf (c :: rest)
    if pref then
      let r1 := (c :: rest).drop lit.length
      let w1 := r1.takeWhile pyIsSpace
      match r1.drop w1.length with
      | ':' :: r2 =>
        let w2 := r2.takeWhile pyIsSpace
        match payload (r2.drop w2.length) with
        | some a => some a
        | none => searchKeyColon ci key payload rest
      | _ => searchKeyColon ci key payload rest
    else searchKeyColon ci key payload rest

/-- Payload of the valid flag search: the literal true or false, case
insensitively, lowered to a Bool. -/
def boolPayload (cs : List Char) : Option Bool :=
  if ciPrefix "true".data cs then some true
  else if ciPrefix "false".data cs then some false
  else none

/-- Payload of the reason search: a double-quoted run without inner
quotes. -/
def reasonPayload (cs : List Char) : Option String :=
  match cs with
  | c :: rest =>
    if c = cQuote then
      let body := rest.takeWhile (fun ch => !(ch = cQuote))
      match (rest.drop body.length).head? with
      | some c2 => if c2 = cQuote then some (String.mk body) else none
      | none => none
    else none
  | [] => none

/-- Payload of a score search: a greedy nonempty run of digits and dots. -/
def scorePayload (cs : List Char) : Option String :=
  let d := cs.takeWhile (fun c => c.isDigit || c = '.')
  if d.isEmpty then none else some (String.mk d)

/-- Python float(s) for a digits-and-dots capture: at most one dot and at
least one digit; None models the caught ValueError. -/
def pyFloatOfStr (s : String) : Option ℚ :=
  let cs := s.data
  let intPart := cs.takeWhile Char.isDigit
  match cs.drop intPart.length with
  | [] => if intPart.isEmpty then none else some (digitsToNat intPart : ℚ)
  | '.' :: rest =>
    let frac := rest.takeWhile Char.isDigit
    if !(rest.drop frac.length).isEmpty then none
    else if intPart.isEmpty ∧ frac.isEmpty then none
    else some (mkRat (digitsToNat (intPart ++ frac) : Nat) (10 ^ frac.length))
  | _ => none

/-- One extracted score: the matched capture through float(), with 0.7 for
a capture that float() rejects, or absent without a match. -/
def extractScore (jsonStr : String) (key : String) : Option ℚ :=
  (searchKeyColon true key.data scorePayload jsonStr.data).map
    (fun d => match pyFloatOfStr d with
      | some q => q
      | none => mkRat 7 10)

/-- Parsing attempt 3 of _parse_validation_response: regex extraction of
the valid flag, the reason and the scores.  When the valid or the reason
search hits, the result returns immediately, without any threshold
check. -/
def regexExtractJudgment (jsonStr : String) (comment : Comment) : Option ValidationResultE :=
  let vm := searchKeyColon true "valid".data boolPayload jsonStr.data
  let rm := searchKeyColon false "reason".data reasonPayload jsonStr.data
  if vm.isSome || rm.isSome then
    let entries := ["relevance", "usefulness", "non_redundancy"].filterMap
      (fun k => (extractScore jsonStr k).map (fun q => (k, Json.num q)))
    some { valid := vm.getD true,
           reason := .str (rm.getD "Partial parse"),
           scores := if entries.isEmpty then defaultScores else .obj entries,
           comment := comment }
  else none

/-- The final keyword fallback of _parse_validation_response over the
stripped lowercased response: found valid=true, found valid=false, or
nothing. -/
def keywordFlag (response : String) : Option Bool :=
  let rl := pyLower (pyStrip response)
  if containsSubstr rl "valid: true" || containsSubstr rl "\x22valid\x22: true" ||
      pyStartsWith rl "true" then some true
  else if containsSubstr rl "valid: false" || containsSubstr rl "\x22valid\x22: false" ||
      pyStartsWith rl "false" then some false
  else none

/-- The ValidationResult built by the fallback branch, with the hard-coded
0.7 scores; no keyword hit defaults to valid (the source's bias: better to
accept than reject on parsing errors). -/
def keywordResult (response : String) (comment : Comment) : ValidationResultE :=
  match keywordFlag response with
  | some true =>
    { valid := true, reason := .str "Fallback parse: found valid=true",
      scores := defaultScores, comment := comment }
  | some false =>
    { valid := false, reason := .str "Fallback parse: found valid=false",
      scores := defaultScores, comment := comment }
  | none =>
    { valid := true,
      reason := .str "Could not parse validation response (using fallback: assuming valid)",
      scores := defaultScores, comment := comment }

/-- A Python value usable in a float comparison: numbers and bools; None
models the TypeError of comparing anything else with the threshold. -/
def asPyNum : Json → Option ℚ
  | .num q => some q
  | .bool b => some (if b then 1 else 0)
  | _ => none

/-- One Python comparison score >= threshold: finite numbers and bools
compare as numbers (True is 1, False is 0), every comparison against nan
is false, an infinity compares by its sign, and anything else raises
TypeError. -/
def pyGEThreshold (v : Json) (threshold : ℚ) : Except PyErr Bool :=
  match v with
  | .num q => .ok (decide (threshold ≤ q))
  | .bool b => .ok (decide (threshold ≤ (if b then (1 : ℚ) else 0)))
  | .nan => .ok false
  | .infinity neg => .ok (!neg)
  | _ => .error .typeErr

/-- The successfully-parsed-data path of _parse_validation_response
(threshold check).  A truthy non-dict raises AttributeError on data.get; a
non-dict scores raises AttributeError on scores.get; the conjunction
short-circuits left to right, so a non-comparable score only raises when
reached. -/
def dataPathResult (threshold : ℚ) (d : Json) (comment : Comment) :
    Except PyErr ValidationResultE :=
  match d with
  | .obj fields =>
    let validJ := jsonGetD fields "valid" (.bool false)
    let reasonJ := jsonGetD fields "reason" (.str "No reason provided")
    match jsonGetD fields "scores" (.obj []) with
    | .obj sf =>
      if pyTruthy validJ = true then
        match pyGEThreshold (jsonGetD sf "relevance" (.num 0)) threshold with
        | .error e => .error e
        | .ok false =>
          .ok { valid := false, reason := reasonJ, scores := .obj sf, comment := comment }
        | .ok true =>
          match pyGEThreshold (jsonGetD sf "usefulness" (.num 0)) threshold with
          | .error e => .error e
          | .ok false =>
            .ok { valid := false, reason := reasonJ, scores := .obj sf, comment := comment }
          | .ok true =>
            match pyGEThreshold (jsonGetD sf "non_redundancy" (.num 0)) threshold with
            | .error e => .error e
            | .ok b =>
              .ok { valid := b, reason := reasonJ, scores := .obj sf, comment := comment }
      else
        .ok { valid := false, reason := reasonJ, scores := .obj sf, comment := comment }
    | _ => .error .attrErr
  | _ => .error .attrErr

/-- _parse_validation_response (comment_validator.py): empty-response
fallback; JSON string selection; parse attempts; on a truthy parsed value
the threshold path, on a falsy or unparsed one the regex extraction (only
after a parse failure) and the keyword fallback. -/
def parseValidationResponse (threshold : ℚ) (response : String) (comment : Comment) :
    Except PyErr ValidationResultE :=
  if pyStrip response = "" then
    .ok { valid := true, reason := .str "Empty validation response (using fallback)",
          scores := defaultScores, comment := comment }
  else
    let jsonStr := selectJsonStr response
    if jsonStr = "" then .ok (keywordResult response comment)
    else
      match tryParseValidationJson jsonStr with
      | some d =>
        if pyTruthy d = true then dataPathResult threshold d comment
        else .ok (keywordResult response comment)
      | none =>
        match regexExtractJudgment jsonStr comment with
        | some res => .ok res
        | none => .ok (keywordResult response comment)

/-- The known prompt-starter strings checked by validate. -/
def promptStarters : List String :=
  ["You are a validator for code review comments", "You are Qwen",
   "You are an expert code reviewer"]

/-- First echo-stripping block of validate: a response starting with a
known starter whose first opening brace lies past index 50 is cut at that
brace and stripped. -/
def echoStep1 (response : String) : String :=
  match charIdx? cLBrace response.data with
  | some i =>
    if 50 < i ∧ promptStarters.any (fun st => pyStartsWith response st) then
      pyStrip (String.mk (response.data.drop i))
    else response
  | none => response

/-- Second echo-stripping block: a response starting with the prompt's
first 150 characters loses a prompt-length prefix and is stripped. -/
def echoStep2 (prompt response : String) : String :=
  if pyStartsWith response (String.mk (prompt.data.take 150)) then
    pyStrip (String.mk (response.data.drop prompt.length))
  else response

/-- Third echo-stripping block: when a starter still occurs inside the
response, the span from the first opening to the last closing brace is
taken when it is brace-delimited after stripping. -/
def echoStep3 (response : String) : String :=
  if promptStarters.any (fun st => containsSubstr response st) then
    match charIdx? cLBrace response.data, charRIdx? cRBrace response.data with
    | some s, some e =>
      if s < e then
        let pot := pyStrip (String.mk ((response.data.drop s).take (e + 1 - s)))
        if pyStartsWith pot (String.mk [cLBrace]) ∧ pyEndsWith pot (String.mk [cRBrace]) then pot
        else response
      else response
    | _, _ => response
  else response

/-- The echo-stripping preprocessing of validate, in source order. -/
def stripPromptEcho (prompt response : String) : String :=
  echoStep3 (echoStep2 prompt (echoStep1 response))

/-- The four counters of the validator's stats dict that the counting
invariant concerns.  The score_sums and score_count aggregates also held
there are updated inside their own try/except-pass and cannot disturb
these counters; they are not modelled. -/
structure VStats where
  total : Nat := 0
  valid : Nat := 0
  invalid : Nat := 0
  errors : Nat := 0
deriving DecidableEq

/-- The stats dict of a freshly constructed CommentValidator. -/
def initVStats : VStats := {}

/-- Outcome of the provider's generate call inside validate: a response
string, or a raised exception with its message. -/
inductive GenOutcome where
  | ok (response : String)
  | raised (message : String)

/-- Exception class names, for the error-handler reason text. -/
def pyErrName : PyErr → String
  | .typeErr => "TypeError"
  | .attrErr => "AttributeError"
  | .valueErr => "ValueError"
  | .overflowErr => "OverflowError"

/-- CommentValidator.validate (comment_validator.py): total is always
incremented; a raised generate call or an exception escaping the response
parsing takes the error handler, which returns an invalid result with zero
scores and increments errors; otherwise the parsed result increments valid
or invalid according to its decision. -/
def validateStep (threshold : ℚ) (stats : VStats) (prompt : String) (gen : GenOutcome)
    (comment : Comment) : ValidationResultE × VStats :=
  let stats1 := { stats with total := stats.total + 1 }
  match gen with
  | .raised msg =>
    ({ valid := false, reason := .str ("Validation error: " ++ msg),
       scores := zeroScores, comment := comment },
     { stats1 with errors := stats1.errors + 1 })
  | .ok response =>
    let resp := stripPromptEcho prompt response
    match parseValidationResponse threshold resp comment with
    | .error e =>
      ({ valid := false, reason := .str ("Validation error: " ++ pyErrName e),
         scores := zeroScores, comment := comment },
       { stats1 with errors := stats1.errors + 1 })
    | .ok res =>
      if res.valid then (res, { stats1 with valid := stats1.valid + 1 })
      else (res, { stats1 with invalid := stats1.invalid + 1 })

/-- One validate call described by its inputs: the built prompt, the
generate outcome, and the judged comment. -/
structure VCall where
  prompt : String
  gen : GenOutcome
  comment : Comment

/-- The stats dict after a sequence of validate calls on one validator. -/
def runValidator (threshold : ℚ) (calls : List VCall) : VStats :=
  calls.foldl (fun st c => (validateStep threshold st c.prompt c.gen c.comment).2) initVStats

/-- The valid flag of a validation outcome, absent on a raised
exception. -/
def resultValidFlag : Except PyErr ValidationResultE → Option Bool
  | .ok r => some r.valid
  | .error _ => none

/-- One numeric score of a validation outcome. -/
def resultScoreVal (e : Except PyErr ValidationResultE) (key : String) : Option ℚ :=
  match e with
  | .ok r =>
    match r.scores with
    | .obj sf => (jsonGet? sf key).bind asPyNum
    | _ => none
  | .error _ => none

/-- A validation response that only the regex-extraction fallback can
read: a valid flag and three low scores outside any JSON object. -/
def lowScorePartialResponse : String :=
  "\x22valid\x22: true, \x22relevance\x22: 0.2, \x22usefulness\x22: 0.2, \x22non_redundancy\x22: 0.2"

/-- A well-formed validation judgment above threshold on every score. -/
def goodJudgmentResponse : String :=
  "\x7b\x22valid\x22: true, \x22reason\x22: \x22x\x22, \x22scores\x22: \x7b\x22relevance\x22: 0.9, \x22usefulness\x22: 0.8, \x22non_redundancy\x22: 0.75\x7d\x7d"

/-- The response of the spec's single-file happy-path scenario. -/
def scenarioResponse : String :=
  "\x7b\"comments\":[\x7b\"file\":\"a.py\",\"line\":5,\"message\":\"Use a list\",\"suggestion\":null\x7d], \"summary\":\"ok\"\x7d"

/-! ## Theorems -/

theorem pyStrip_eq_empty_all {s : String} (h : pyStrip s = "") :
    ∀ c ∈ s.data, pyIsSpace c = true := by
  have hd : (((s.data.dropWhile pyIsSpace).reverse.dropWhile pyIsSpace).reverse) = [] :=
    congrArg String.data h
  have h1 : (s.data.dropWhile pyIsSpace).reverse.dropWhile pyIsSpace = [] := by
    simpa using hd
  have h2 : ∀ c ∈ (s.data.dropWhile pyIsSpace).reverse, pyIsSpace c = true :=
    List.dropWhile_eq_nil_iff.mp h1
  have h3 : ∀ c ∈ s.data.dropWhile pyIsSpace, pyIsSpace c = true := by
    intro c hc
    exact h2 c (List.mem_reverse.mpr hc)
  intro c hc
  have := List.takeWhile_append_dropWhile (p := pyIsSpace) (l := s.data)
  rw [← this] at hc
  rcases List.mem_append.mp hc with h4 | h4
  · exact List.mem_takeWhile_imp h4
  · exact h3 c h4

theorem scanFence_all_space (cs : List Char) (h : ∀ c ∈ cs, pyIsSpace c = true) :
    scanFence cs = none := by
  induction cs with
  | nil => rfl
  | cons c rest ih =>
    have hc : pyIsSpace c = true := h c (List.mem_cons_self c rest)
    have hcb : ¬ (c = cBacktick) := by
      intro he
      rw [he] at hc
      exact absurd hc (by decide)
    rw [scanFence.eq_def]
    simp only [hcb, if_false, ite_false]
    exact ih (fun x hx => h x (List.mem_cons_of_mem c hx))

/-- C2: the parser never raises: the embedded _parse_llm_response is total,
an empty or whitespace-only response yields zero comments, and a nonblank
ASCII response from which no JSON can be recovered yields exactly one
fallback comment whose content is the explanatory prefix followed by the
raw response, with no line number and severity info.  The blank case needs
no ASCII bound because the model strips a subset of the whitespace Python
strips; the no-JSON case is stated on ASCII responses, where the
character-level models of strip, the regex classes and the JSON grammar
are exact. -/
theorem parseLLMResponse_degrades (response filePath : String) :
    (pyStrip response = "" → parseLLMResponse response filePath = []) ∧
    ((∀ c ∈ response.data, c.toNat < 128) →
      pyStrip response ≠ "" →
      parseJsonResponse (fixCommonJsonErrors (extractJsonFromResponse response)) = none →
      parseLLMResponse response filePath =
        [{ content := "*[Parsing error: expected JSON format]*\n\n" ++ response,
           line_number := none, line_range := none,
           severity := Severity.info, file_path := some filePath }]) := by
  constructor
  · intro h
    have hsf : scanFence response.data = none :=
      scanFence_all_space _ (pyStrip_eq_empty_all h)
    have hex : extractJsonFromResponse response = "" := by
      rw [extractJsonFromResponse, hsf]
      exact h
    simp [parseLLMResponse, parseLLMResponseE, hex, createFallbackComment, h]
  · intro hA h1 h2
    by_cases hj : extractJsonFromResponse response = ""
    · simp [parseLLMResponse, parseLLMResponseE, hj, createFallbackComment,
        errFallbackText, h1]
    · simp [parseLLMResponse, parseLLMResponseE, hj, h2, createFallbackComment,
        errFallbackText, h1]

theorem greedyCount_le (budget : Nat) :
    ∀ (rem : List Nat) (used : Nat), greedyCount budget used rem ≤ rem.length := by
  intro rem
  induction rem with
  | nil => intro used; exact Nat.le_refl 0
  | cons t rest ih =>
    intro used
    rw [greedyCount]
    by_cases h : used + t ≤ budget
    · rw [if_pos h]
      exact Nat.succ_le_succ (ih (used + t))
    · rw [if_neg h]
      exact Nat.zero_le _

theorem chunkEnd_ge (tok : List Nat) (budget startIdx : Nat) (h : startIdx < tok.length) :
    startIdx + 1 ≤ chunkEnd tok budget startIdx := by
  simp only [chunkEnd]
  generalize greedyCount budget 0 (tok.drop startIdx) = g
  by_cases h0 : startIdx + g = startIdx
  · rw [if_pos h0]
    omega
  · rw [if_neg h0]
    omega

theorem chunkEnd_le (tok : List Nat) (budget startIdx : Nat) :
    chunkEnd tok budget startIdx ≤ tok.length ∨ startIdx ≥ tok.length := by
  by_cases h : startIdx < tok.length
  · left
    simp only [chunkEnd]
    have hg : greedyCount budget 0 (tok.drop startIdx) ≤ tok.length - startIdx := by
      have h1 := greedyCount_le budget (tok.drop startIdx) 0
      simpa [List.length_drop] using h1
    by_cases h0 : startIdx + greedyCount budget 0 (tok.drop startIdx) = startIdx
    · rw [if_pos h0]
      omega
    · rw [if_neg h0]
      omega
  · right
    omega

theorem nextStartIdx_ge (tok : List Nat) (budget overlap startIdx : Nat) :
    startIdx + 1 ≤ nextStartIdx tok budget overlap startIdx := by
  simp only [nextStartIdx]
  by_cases ho : 0 < overlap
  · rw [if_pos ho]
    omega
  · rw [if_neg ho]
    omega

theorem nextStartIdx_le_end (tok : List Nat) (budget overlap startIdx : Nat)
    (h : startIdx < tok.length) :
    nextStartIdx tok budget overlap startIdx ≤ chunkEnd tok budget startIdx := by
  have he := chunkEnd_ge tok budget startIdx h
  simp only [nextStartIdx]
  by_cases ho : 0 < overlap
  · rw [if_pos ho]
    omega
  · rw [if_neg ho]
    omega

theorem chunkEnd_le_nextStart_add (tok : List Nat) (budget overlap startIdx : Nat)
    (h : startIdx < tok.length) :
    chunkEnd tok budget startIdx ≤ nextStartIdx tok budget overlap startIdx + overlap := by
  have he := chunkEnd_ge tok budget startIdx h
  simp only [nextStartIdx]
  by_cases ho : 0 < overlap
  · rw [if_pos ho]
    omega
  · rw [if_neg ho]
    omega

theorem chunkRangesAux_length_le (tok : List Nat) (budget overlap : Nat) :
    ∀ (fuel startIdx : Nat),
      (chunkRangesAux tok budget overlap startIdx fuel).length ≤ fuel := by
  intro fuel
  induction fuel with
  | zero => intro s; exact Nat.le_refl 0
  | succ m ih =>
    intro s
    rw [chunkRangesAux]
    by_cases h : s < tok.length
    · rw [if_pos h]
      exact Nat.succ_le_succ (ih _)
    · rw [if_neg h]
      exact Nat.zero_le _

theorem chunkRangesAux_bounds (tok : List Nat) (budget overlap : Nat) :
    ∀ (fuel startIdx : Nat) (r : Nat × Nat),
      r ∈ chunkRangesAux tok budget overlap startIdx fuel →
      startIdx + 1 ≤ r.1 ∧ r.1 ≤ r.2 ∧ r.2 ≤ tok.length := by
  intro fuel
  induction fuel with
  | zero => intro s r hr; exact absurd hr (List.not_mem_nil r)
  | succ m ih =>
    intro s r hr
    rw [chunkRangesAux] at hr
    by_cases h : s < tok.length
    · rw [if_pos h] at hr
      rcases List.mem_cons.mp hr with he | hm
      · rw [he]
        refine ⟨Nat.le_refl _, chunkEnd_ge tok budget s h, ?_⟩
        rcases chunkEnd_le tok budget s with h2 | h2
        · exact h2
        · omega
      · have hrec := ih (nextStartIdx tok budget overlap s) r hm
        have hn := nextStartIdx_ge tok budget overlap s
        exact ⟨by omega, hrec.2.1, hrec.2.2⟩
    · rw [if_neg h] at hr
      exact absurd hr (List.not_mem_nil r)

theorem chunkRangesAux_cover (tok : List Nat) (budget overlap : Nat) :
    ∀ (fuel startIdx n : Nat), tok.length - startIdx ≤ fuel →
      startIdx + 1 ≤ n → n ≤ tok.length →
      ∃ r ∈ chunkRangesAux tok budget overlap startIdx fuel, r.1 ≤ n ∧ n ≤ r.2 := by
  intro fuel
  induction fuel with
  | zero =>
    intro s n hf h1 h2
    exfalso
    omega
  | succ m ih =>
    intro s n hf h1 h2
    have hs : s < tok.length := by omega
    rw [chunkRangesAux, if_pos hs]
    by_cases hn : n ≤ chunkEnd tok budget s
    · exact ⟨(s + 1, chunkEnd tok budget s), List.mem_cons_self _ _, h1, hn⟩
    · push_neg at hn
      have hnle := nextStartIdx_le_end tok budget overlap s hs
      have hge := nextStartIdx_ge tok budget overlap s
      obtain ⟨r, hrm, hr1, hr2⟩ :=
        ih (nextStartIdx tok budget overlap s) n (by omega) (by omega) h2
      exact ⟨r, List.mem_cons_of_mem _ hrm, hr1, hr2⟩

theorem chunkRangesAux_head (tok : List Nat) (budget overlap : Nat) :
    ∀ (fuel startIdx : Nat) (r : Nat × Nat),
      (chunkRangesAux tok budget overlap startIdx fuel).head? = some r →
      r.1 = startIdx + 1 := by
  intro fuel
  cases fuel with
  | zero => intro s r hr; exact absurd hr (by simp [chunkRangesAux])
  | succ m =>
    intro s r hr
    rw [chunkRangesAux] at hr
    by_cases h : s < tok.length
    · rw [if_pos h] at hr
      simp only [List.head?_cons, Option.some.injEq] at hr
      rw [← hr]
    · rw [if_neg h] at hr
      exact absurd hr (by simp)

theorem chunkRangesAux_chain (tok : List Nat) (budget overlap : Nat) :
    ∀ (fuel startIdx : Nat),
      List.Chain' (fun r1 r2 => rangeOverlap r1 r2 ≤ overlap)
        (chunkRangesAux tok budget overlap startIdx fuel) := by
  intro fuel
  induction fuel with
  | zero => intro s; rw [chunkRangesAux]; exact List.chain'_nil
  | succ m ih =>
    intro s
    rw [chunkRangesAux]
    by_cases h : s < tok.length
    · rw [if_pos h]
      refine List.chain'_cons'.mpr ⟨?_, ih _⟩
      intro y hy
      have hy1 : y.1 = nextStartIdx tok budget overlap s + 1 :=
        chunkRangesAux_head tok budget overlap m _ y (Option.mem_def.mp hy)
      have he1 := chunkEnd_ge tok budget s h
      have hle := chunkEnd_le_nextStart_add tok budget overlap s h
      have hge := nextStartIdx_ge tok budget overlap s
      simp only [rangeOverlap, hy1]
      omega
    · rw [if_neg h]
      exact List.chain'_nil

/-- C6: chunking always terminates with a finite list of ranges, at most
one per line of the file, for every token budget and overlap (the fallback
guarantees at least one line of progress per chunk). -/
theorem iterFileChunkRanges_terminates (newContent : String) (tokenBudget overlap : Nat) :
    (iterFileChunkRanges newContent tokenBudget overlap).length ≤
      (newContent.splitOn "\n").length := by
  simp only [iterFileChunkRanges]
  have h := chunkRangesAux_length_le (lineTokens (newContent.splitOn "\n"))
    tokenBudget overlap (lineTokens (newContent.splitOn "\n")).length 0
  simpa [lineTokens] using h

/-- C5: the chunk ranges cover exactly the lines 1..N of the file (every
line is in some chunk and chunks never leave the file), and any two
consecutive chunk ranges share at most chunk_overlap_lines lines. -/
theorem iterFileChunkRanges_cover (newContent : String) (tokenBudget overlap : Nat) :
    (∀ n : Nat,
      (∃ r ∈ iterFileChunkRanges newContent tokenBudget overlap, r.1 ≤ n ∧ n ≤ r.2) ↔
        (1 ≤ n ∧ n ≤ (newContent.splitOn "\n").length)) ∧
    List.Chain' (fun r1 r2 => rangeOverlap r1 r2 ≤ overlap)
      (iterFileChunkRanges newContent tokenBudget overlap) := by
  have hlen : (lineTokens (newContent.splitOn "\n")).length =
      (newContent.splitOn "\n").length := List.length_map _ _
  constructor
  · intro n
    constructor
    · rintro ⟨r, hrm, hr1, hr2⟩
      simp only [iterFileChunkRanges] at hrm
      have hb := chunkRangesAux_bounds (lineTokens (newContent.splitOn "\n"))
        tokenBudget overlap _ 0 r hrm
      refine ⟨by omega, by omega⟩
    · rintro ⟨h1, h2⟩
      simp only [iterFileChunkRanges]
      exact chunkRangesAux_cover (lineTokens (newContent.splitOn "\n")) tokenBudget overlap
        (lineTokens (newContent.splitOn "\n")).length 0 n (by omega) h1 (by omega)
  · simp only [iterFileChunkRanges]
    exact chunkRangesAux_chain (lineTokens (newContent.splitOn "\n")) tokenBudget overlap _ 0

theorem dedupeAux_key_not_seen (cs : List Comment) :
    ∀ (seen : List (Option String × Option Int × Option (Int × Int) × Severity × String))
      (c : Comment), c ∈ dedupeAux seen cs → dedupeKey c ∉ seen := by
  induction cs with
  | nil => intro seen c hc; exact absurd hc (List.not_mem_nil c)
  | cons c0 rest ih =>
    intro seen c hc
    by_cases h : dedupeKey c0 ∈ seen
    · rw [dedupeAux, if_pos h] at hc
      exact ih seen c hc
    · rw [dedupeAux, if_neg h] at hc
      rcases List.mem_cons.mp hc with he | hm
      · rw [he]; exact h
      · have := ih (dedupeKey c0 :: seen) c hm
        intro hin
        exact this (List.mem_cons_of_mem _ hin)

theorem dedupeAux_idem (cs : List Comment) :
    ∀ seen, dedupeAux seen (dedupeAux seen cs) = dedupeAux seen cs := by
  induction cs with
  | nil => intro seen; rfl
  | cons c0 rest ih =>
    intro seen
    by_cases h : dedupeKey c0 ∈ seen
    · rw [dedupeAux, if_pos h]
      exact ih seen
    · rw [dedupeAux, if_neg h, dedupeAux, if_neg h]
      rw [ih (dedupeKey c0 :: seen)]

theorem dedupeAux_sublist (cs : List Comment) :
    ∀ seen, (dedupeAux seen cs).Sublist cs := by
  induction cs with
  | nil => intro seen; exact List.Sublist.refl []
  | cons c0 rest ih =>
    intro seen
    by_cases h : dedupeKey c0 ∈ seen
    · rw [dedupeAux, if_pos h]
      exact (ih seen).cons c0
    · rw [dedupeAux, if_neg h]
      exact (ih (dedupeKey c0 :: seen)).cons₂ c0

theorem dedupeAux_keys_nodup (cs : List Comment) :
    ∀ seen, ((dedupeAux seen cs).map dedupeKey).Nodup := by
  induction cs with
  | nil => intro seen; exact List.nodup_nil
  | cons c0 rest ih =>
    intro seen
    by_cases h : dedupeKey c0 ∈ seen
    · rw [dedupeAux, if_pos h]
      exact ih seen
    · rw [dedupeAux, if_neg h]
      rw [List.map_cons]
      refine List.nodup_cons.mpr ⟨?_, ih (dedupeKey c0 :: seen)⟩
      intro hin
      rcases List.mem_map.mp hin with ⟨c, hc, he⟩
      have := dedupeAux_key_not_seen rest (dedupeKey c0 :: seen) c hc
      exact this (he ▸ List.mem_cons_self _ _)

theorem dedupeAux_key_covered (cs : List Comment) :
    ∀ seen (c : Comment), c ∈ cs →
      dedupeKey c ∈ seen ∨ dedupeKey c ∈ (dedupeAux seen cs).map dedupeKey := by
  induction cs with
  | nil => intro seen c hc; exact absurd hc (List.not_mem_nil c)
  | cons c0 rest ih =>
    intro seen c hc
    by_cases h : dedupeKey c0 ∈ seen
    · rw [dedupeAux, if_pos h]
      rcases List.mem_cons.mp hc with he | hm
      · exact Or.inl (he ▸ h)
      · exact ih seen c hm
    · rw [dedupeAux, if_neg h, List.map_cons]
      rcases List.mem_cons.mp hc with he | hm
      · exact Or.inr (he ▸ List.mem_cons_self _ _)
      · rcases ih (dedupeKey c0 :: seen) c hm with hs | hd
        · rcases List.mem_cons.mp hs with he2 | hs2
          · exact Or.inr (he2 ▸ List.mem_cons_self _ _)
          · exact Or.inl hs2
        · exact Or.inr (List.mem_cons_of_mem _ hd)

theorem dedupeAux_first_occurrence (cs : List Comment) :
    ∀ seen (c' : Comment), c' ∈ dedupeAux seen cs →
      cs.find? (fun c => decide (dedupeKey c = dedupeKey c')) = some c' := by
  induction cs with
  | nil => intro seen c' hc; exact absurd hc (List.not_mem_nil c')
  | cons c0 rest ih =>
    intro seen c' hc
    by_cases h : dedupeKey c0 ∈ seen
    · rw [dedupeAux, if_pos h] at hc
      have hnot := dedupeAux_key_not_seen rest seen c' hc
      have hne : ¬ (dedupeKey c0 = dedupeKey c') := by
        intro he
        exact hnot (he ▸ h)
      rw [List.find?_cons]
      simp only [hne, decide_eq_true_eq, if_false, decide_False]
      exact ih seen c' hc
    · rw [dedupeAux, if_neg h] at hc
      rcases List.mem_cons.mp hc with he | hm
      · rw [he]
        rw [List.find?_cons]
        simp
      · have hnot := dedupeAux_key_not_seen rest (dedupeKey c0 :: seen) c' hm
        have hne : ¬ (dedupeKey c0 = dedupeKey c') := by
          intro he2
          exact hnot (he2 ▸ List.mem_cons_self _ _)
        rw [List.find?_cons]
        simp only [hne, decide_eq_true_eq, if_false, decide_False]
        exact ih (dedupeKey c0 :: seen) c' hm

/-- C8: deduplication is idempotent; the surviving comments are a sublist
of the input (relative order preserved), their keys — file path, line
number, line range, severity and whitespace-collapsed lowercased content —
are pairwise distinct, every input key survives, and each survivor is the
first input comment bearing its key. -/
theorem dedupeComments_spec (comments : List Comment) :
    dedupeComments (dedupeComments comments) = dedupeComments comments ∧
    (dedupeComments comments).Sublist comments ∧
    ((dedupeComments comments).map dedupeKey).Nodup ∧
    (∀ c ∈ comments, dedupeKey c ∈ (dedupeComments comments).map dedupeKey) ∧
    (∀ c' ∈ dedupeComments comments,
      comments.find? (fun c => decide (dedupeKey c = dedupeKey c')) = some c') := by
  refine ⟨dedupeAux_idem comments [], dedupeAux_sublist comments [],
    dedupeAux_keys_nodup comments [], ?_, ?_⟩
  · intro c hc
    rcases dedupeAux_key_covered comments [] c hc with hs | hd
    · exact absurd hs (List.not_mem_nil _)
    · exact hd
  · intro c' hc'
    exact dedupeAux_first_occurrence comments [] c' hc'

/-- C8 witness: two comments differing only in spacing and case collapse
to the first, and deduplication fixes the result. -/
theorem dedupeComments_spec_witness :
    dedupeComments [Comment.mk "Use  a LIST" none none Severity.info (some "a.py"),
        Comment.mk "use a list" none none Severity.info (some "a.py")] =
      [Comment.mk "Use  a LIST" none none Severity.info (some "a.py")] ∧
    dedupeKey (Comment.mk "use a list" none none Severity.info (some "a.py")) ∈
      (dedupeComments [Comment.mk "Use  a LIST" none none Severity.info (some "a.py"),
        Comment.mk "use a list" none none Severity.info (some "a.py")]).map dedupeKey :=
  ⟨by decide,
   (dedupeComments_spec [Comment.mk "Use  a LIST" none none Severity.info (some "a.py"),
      Comment.mk "use a list" none none Severity.info (some "a.py")]).2.2.2.1
    (Comment.mk "use a list" none none Severity.info (some "a.py")) (by decide)⟩

/-- C9: an ASCII validation response from which no strategy recovers a
judgment (parse attempts fail, regex extraction fails, keyword scan fails)
yields a default-accept: valid with the could-not-parse reason and 0.7
scores.  The ASCII bound keeps the character-level models of strip, the
word class of the regexes and the JSON grammar exact. -/
theorem parseValidation_default_accept (t : ℚ) (response : String) (c : Comment)
    (h0 : ∀ ch ∈ response.data, ch.toNat < 128)
    (h1 : pyStrip response ≠ "")
    (h2 : tryParseValidationJson (selectJsonStr response) = none)
    (h3 : regexExtractJudgment (selectJsonStr response) c = none)
    (h4 : keywordFlag response = none) :
    parseValidationResponse t response c =
      .ok { valid := true,
            reason := .str "Could not parse validation response (using fallback: assuming valid)",
            scores := Json.obj [("relevance", .num (mkRat 7 10)),
              ("usefulness", .num (mkRat 7 10)), ("non_redundancy", .num (mkRat 7 10))],
            comment := c } := by
  simp only [parseValidationResponse]
  rw [if_neg h1]
  by_cases hj : selectJsonStr response = ""
  · simp only [if_pos hj, keywordResult, h4, defaultScores]
  · simp only [if_neg hj, h2, h3, keywordResult, h4, defaultScores]

/-- C9 witness: the spec's garbage validation response. -/
theorem parseValidation_default_accept_witness :
    parseValidationResponse (mkRat 7 10) "I cannot help with that." { content := "c" } =
      .ok { valid := true,
            reason := .str "Could not parse validation response (using fallback: assuming valid)",
            scores := Json.obj [("relevance", .num (mkRat 7 10)),
              ("usefulness", .num (mkRat 7 10)), ("non_redundancy", .num (mkRat 7 10))],
            comment := { content := "c" } } :=
  parseValidation_default_accept (mkRat 7 10) "I cannot help with that." { content := "c" }
    (by decide) (by decide) (by rfl) (by rfl) (by decide)

/-- C4 counterexample: a judgment recovered by the regex-extraction
fallback keeps the comment (valid = true) although each extracted score is
0.2, far below the 0.7 threshold, so the final decision is not the
conjunction of the four conditions. -/
theorem validation_partial_parse_skips_threshold :
    resultValidFlag (parseValidationResponse (mkRat 7 10) lowScorePartialResponse
      { content := "c" }) = some true ∧
    resultScoreVal (parseValidationResponse (mkRat 7 10) lowScorePartialResponse
      { content := "c" }) "relevance" = some (mkRat 1 5) ∧
    ¬ (mkRat 7 10 ≤ mkRat 1 5) := ⟨by decide, by decide, by decide⟩

/-- A value accepted by asPyNum compares against the threshold as that
number. -/
theorem asPyNum_pyGE (v : Json) (t q : ℚ) (h : asPyNum v = some q) :
    pyGEThreshold v t = Except.ok (decide (t ≤ q)) := by
  cases v with
  | num x =>
    have hx : x = q := Option.some.inj h
    subst hx; rfl
  | bool b =>
    have hb : (if b then (1 : ℚ) else 0) = q := Option.some.inj h
    subst hb; rfl
  | null => exact absurd h (by simp [asPyNum])
  | str s => exact absurd h (by simp [asPyNum])
  | arr xs => exact absurd h (by simp [asPyNum])
  | obj fs => exact absurd h (by simp [asPyNum])
  | nan => exact absurd h (by simp [asPyNum])
  | infinity neg => exact absurd h (by simp [asPyNum])

/-- C4 amended: when the response parses (directly or after the textual
repairs) to a truthy JSON judgment object whose three scores compare as
numbers, the final decision is the conjunction of the judgment's valid
flag and the three threshold tests; only such judgments get the threshold
check (regex-recovered partial judgments return their flag unchecked). -/
theorem validation_threshold_conjunction (t : ℚ) (response : String) (c : Comment)
    (fields sf : List (String × Json)) (r u nr : ℚ)
    (h0 : pyStrip response ≠ "")
    (h1 : tryParseValidationJson (selectJsonStr response) = some (.obj fields))
    (h2 : fields ≠ [])
    (h3 : jsonGetD fields "scores" (.obj []) = .obj sf)
    (h4 : asPyNum (jsonGetD sf "relevance" (.num 0)) = some r)
    (h5 : asPyNum (jsonGetD sf "usefulness" (.num 0)) = some u)
    (h6 : asPyNum (jsonGetD sf "non_redundancy" (.num 0)) = some nr) :
    resultValidFlag (parseValidationResponse t response c) = some true ↔
      (pyTruthy (jsonGetD fields "valid" (.bool false)) = true ∧
        t ≤ r ∧ t ≤ u ∧ t ≤ nr) := by
  have hj : selectJsonStr response ≠ "" := by
    intro he
    rw [he] at h1
    have : tryParseValidationJson "" = none := by rfl
    rw [this] at h1
    exact Option.noConfusion h1
  have htr : pyTruthy (Json.obj fields) = true := by
    cases fields with
    | nil => exact absurd rfl h2
    | cons kv rest => rfl
  have hdata : dataPathResult t (Json.obj fields) c =
      if pyTruthy (jsonGetD fields "valid" (.bool false)) = true then
        Except.ok (ValidationResultE.mk (decide (t ≤ r) && decide (t ≤ u) && decide (t ≤ nr))
          (jsonGetD fields "reason" (.str "No reason provided")) (.obj sf) c)
      else
        Except.ok (ValidationResultE.mk false
          (jsonGetD fields "reason" (.str "No reason provided")) (.obj sf) c) := by
    have hR : pyGEThreshold (jsonGetD sf "relevance" (.num 0)) t =
        Except.ok (decide (t ≤ r)) := asPyNum_pyGE _ t r h4
    have hU : pyGEThreshold (jsonGetD sf "usefulness" (.num 0)) t =
        Except.ok (decide (t ≤ u)) := asPyNum_pyGE _ t u h5
    have hN : pyGEThreshold (jsonGetD sf "non_redundancy" (.num 0)) t =
        Except.ok (decide (t ≤ nr)) := asPyNum_pyGE _ t nr h6
    simp only [dataPathResult, h3, hR, hU, hN]
    by_cases hv : pyTruthy (jsonGetD fields "valid" (.bool false)) = true
    · rw [if_pos hv, if_pos hv]
      cases hr : decide (t ≤ r) with
      | false => simp
      | true =>
        cases hu : decide (t ≤ u) with
        | false => simp
        | true =>
          cases hn : decide (t ≤ nr) with
          | false => simp
          | true => simp
    · rw [if_neg hv, if_neg hv]
  simp only [parseValidationResponse]
  rw [if_neg h0]
  rw [if_neg hj]
  rw [h1]
  show resultValidFlag (if pyTruthy (Json.obj fields) = true then
      dataPathResult t (Json.obj fields) c
    else Except.ok (keywordResult response c)) = some true ↔ _
  rw [if_pos htr]
  rw [hdata]
  by_cases hv : pyTruthy (jsonGetD fields "valid" (.bool false)) = true
  · rw [if_pos hv]
    simp only [resultValidFlag, Option.some.injEq, Bool.and_eq_true, decide_eq_true_eq]
    constructor
    · intro hall
      exact ⟨hv, hall.1.1, hall.1.2, hall.2⟩
    · intro hcon
      exact ⟨⟨hcon.2.1, hcon.2.2.1⟩, hcon.2.2.2⟩
  · rw [if_neg hv]
    simp only [resultValidFlag, Option.some.injEq, Bool.false_eq_true, false_iff]
    intro hcon
    exact hv hcon.1

/-- C4 amended witness: a fully parsed judgment with every score above
threshold is accepted through the conjunction. -/
theorem validation_threshold_conjunction_witness :
    resultValidFlag (parseValidationResponse (mkRat 7 10) goodJudgmentResponse
      { content := "c" }) = some true :=
  (validation_threshold_conjunction (mkRat 7 10) goodJudgmentResponse { content := "c" }
    [("valid", .bool true), ("reason", .str "x"),
     ("scores", .obj [("relevance", .num (mkRat 9 10)), ("usefulness", .num (mkRat 8 10)),
       ("non_redundancy", .num (mkRat 75 100))])]
    [("relevance", .num (mkRat 9 10)), ("usefulness", .num (mkRat 8 10)),
     ("non_redundancy", .num (mkRat 75 100))]
    (mkRat 9 10) (mkRat 8 10) (mkRat 75 100)
    (by decide) (by rfl) (List.cons_ne_nil _ _) (by rfl) (by rfl) (by rfl) (by rfl)).mpr
    ⟨rfl, by decide, by decide, by decide⟩

/-- C2 witness: the parser at the spec's garbage input and at a
whitespace-only input. -/
theorem parseLLMResponse_degrades_witness :
    parseLLMResponse "not json at all" "test.py" =
      [{ content := "*[Parsing error: expected JSON format]*\n\nnot json at all",
         line_number := none, line_range := none,
         severity := Severity.info, file_path := some "test.py" }] ∧
    parseLLMResponse "  \n " "test.py" = [] :=
  ⟨(parseLLMResponse_degrades "not json at all" "test.py").2 (by decide) (by decide) (by rfl),
   (parseLLMResponse_degrades "  \n " "test.py").1 (by rfl)⟩

theorem validateStep_counts (t : ℚ) (stats : VStats) (p : String) (g : GenOutcome)
    (c : Comment) :
    ((validateStep t stats p g c).2).total = stats.total + 1 ∧
    ((((validateStep t stats p g c).2).valid = stats.valid + 1 ∧
      ((validateStep t stats p g c).2).invalid = stats.invalid ∧
      ((validateStep t stats p g c).2).errors = stats.errors) ∨
     (((validateStep t stats p g c).2).valid = stats.valid ∧
      ((validateStep t stats p g c).2).invalid = stats.invalid + 1 ∧
      ((validateStep t stats p g c).2).errors = stats.errors) ∨
     (((validateStep t stats p g c).2).valid = stats.valid ∧
      ((validateStep t stats p g c).2).invalid = stats.invalid ∧
      ((validateStep t stats p g c).2).errors = stats.errors + 1)) := by
  cases g with
  | raised msg => simp [validateStep]
  | ok r =>
    cases h : parseValidationResponse t (stripPromptEcho p r) c with
    | error e => simp [validateStep, h]
    | ok res =>
      by_cases hv : res.valid
      · simp [validateStep, h, hv]
      · simp [validateStep, h, hv]

theorem runValidator_fold_inv (t : ℚ) (calls : List VCall) :
    ∀ stats : VStats,
      stats.total = stats.valid + stats.invalid + stats.errors →
      (calls.foldl (fun st c => (validateStep t st c.prompt c.gen c.comment).2) stats).total =
        (calls.foldl (fun st c => (validateStep t st c.prompt c.gen c.comment).2) stats).valid +
        (calls.foldl (fun st c => (validateStep t st c.prompt c.gen c.comment).2) stats).invalid +
        (calls.foldl (fun st c => (validateStep t st c.prompt c.gen c.comment).2) stats).errors := by
  induction calls with
  | nil => intro stats h; simpa using h
  | cons call rest ih =>
    intro stats h
    simp only [List.foldl_cons]
    apply ih
    have h2 := validateStep_counts t stats call.prompt call.gen call.comment
    omega

/-- C10: every validate call increments total by exactly one and exactly
one of the valid, invalid, errors counters, so after any sequence of calls
on a freshly constructed validator the stats satisfy
total = valid + invalid + errors. -/
theorem validator_stats_invariant (t : ℚ) :
    (∀ (stats : VStats) (p : String) (g : GenOutcome) (c : Comment),
      ((validateStep t stats p g c).2).total = stats.total + 1 ∧
      ((((validateStep t stats p g c).2).valid = stats.valid + 1 ∧
        ((validateStep t stats p g c).2).invalid = stats.invalid ∧
        ((validateStep t stats p g c).2).errors = stats.errors) ∨
       (((validateStep t stats p g c).2).valid = stats.valid ∧
        ((validateStep t stats p g c).2).invalid = stats.invalid + 1 ∧
        ((validateStep t stats p g c).2).errors = stats.errors) ∨
       (((validateStep t stats p g c).2).valid = stats.valid ∧
        ((validateStep t stats p g c).2).invalid = stats.invalid ∧
        ((validateStep t stats p g c).2).errors = stats.errors + 1))) ∧
    (∀ calls : List VCall,
      (runValidator t calls).total =
        (runValidator t calls).valid + (runValidator t calls).invalid +
          (runValidator t calls).errors) := by
  refine ⟨fun stats p g c => validateStep_counts t stats p g c, fun calls => ?_⟩
  exact runValidator_fold_inv t calls initVStats rfl

/-- C3 counterexample: with the provider's generate call raising, validate
returns an invalid result, not the default-accept the claim states. -/
theorem validate_raise_not_accepted :
    (validateStep (mkRat 7 10) initVStats "p" (GenOutcome.raised "boom")
      { content := "c" }).1.valid = false := rfl

/-- C3 amended: an exception from the provider's generate call is caught
and treated as default-reject: the returned ValidationResult has
valid = false (the comment is dropped), the errors counter is incremented,
and nothing propagates to the caller. -/
theorem validate_raise_default_reject (t : ℚ) (stats : VStats) (p msg : String)
    (c : Comment) :
    ((validateStep t stats p (GenOutcome.raised msg) c).1).valid = false ∧
    (validateStep t stats p (GenOutcome.raised msg) c).2 =
      { total := stats.total + 1, valid := stats.valid, invalid := stats.invalid,
        errors := stats.errors + 1 } := ⟨rfl, rfl⟩

/-- C7: the comment-mode filter returns no comments and the summary in
summary mode, only the inline comments and no summary in inline mode, and
everything unchanged in both mode. -/
theorem applyCommentMode_policy (comments : List Comment) (summary : Option String) :
    applyCommentMode "summary" comments summary = ([], summary) ∧
    applyCommentMode "inline" comments summary =
      (comments.filter (fun c => c.is_inline), none) ∧
    applyCommentMode "both" comments summary = (comments, summary) := ⟨rfl, rfl, rfl⟩

/-- C1, evaluated at the scenario input in the code as written: parsing the
happy-path response does not produce the K parsed comments with line
numbers the claim states; the Comment constructor call in
_parse_comment_item passes a suggestion keyword the dataclass lacks, so a
TypeError degrades the whole parse to one non-inline fallback comment,
while the summary is still extracted as ok. -/
theorem scenario_parse_result :
    parseLLMResponse scenarioResponse "a.py" =
      [{ content := "*[Error parsing response]*\n\n" ++ scenarioResponse,
         line_number := none, line_range := none,
         severity := Severity.info, file_path := some "a.py" }] ∧
    (parseLLMResponse scenarioResponse "a.py").map Comment.is_inline = [false] ∧
    extractSummary scenarioResponse = some (.str "ok") :=
  ⟨by decide, by decide, by rfl⟩

end Luminary
